import Mathlib

/-!
Shallow embedding of the data-acquisition core of `src/Streamlit3.py`
(an NYC rodent-inspection dashboard): the `load_clean` cleaning pipeline,
the `st.cache_data` caching wrapper, the sidebar filters, the header KPIs,
the grouped counts of the Overview tab and the geographic sampling of the
Map tab.  Components that the specification describes but that are absent
from this variant's source (the QueryBuilder and the top-K "Other"
collapsing Aggregator) are modelled from the specification and are marked
as such in their doc comments.
-/

namespace Streamlit3

/-- A calendar date, the value held by a `datetime64` cell after
`pd.to_datetime` succeeds. -/
structure Date where
  year : Nat
  month : Nat
  day : Nat
deriving DecidableEq, Repr

/-- A cell of the `INSPECTION_DATE` column as it can occur in a frame:
either a raw string (as read by `pd.read_csv`) or an already parsed
datetime value (after a previous `pd.to_datetime`). -/
inductive TsVal where
  | str (s : String)
  | dt (d : Date)
deriving DecidableEq, Repr

/-- Digit value of a character, `none` for non-digits. -/
def digitVal (c : Char) : Option Nat :=
  if '0' ≤ c ∧ c ≤ '9' then some (c.toNat - '0'.toNat) else none

def natOfDigitsAux : List Char → Nat → Option Nat
  | [], acc => some acc
  | c :: cs, acc =>
    match digitVal c with
    | some d => natOfDigitsAux cs (acc * 10 + d)
    | none => none

/-- A non-empty all-digit character group read as a natural number. -/
def natOfDigits (cs : List Char) : Option Nat :=
  if cs.isEmpty then none else natOfDigitsAux cs 0

/-- Splitting a character list on the `/` separator. -/
def splitSlash : List Char → List (List Char)
  | [] => [[]]
  | c :: cs =>
    if c = '/' then [] :: splitSlash cs
    else
      match splitSlash cs with
      | [] => [[c]]
      | g :: gs => (c :: g) :: gs

/-- Models `pd.to_datetime(_, errors="coerce")` on the dataset's
`MM/DD/YYYY` date strings: an unparsable string becomes `none` (NaT). -/
def parseDateString (s : String) : Option Date :=
  match splitSlash s.data with
  | [m, d, y] =>
    match natOfDigits m, natOfDigits d, natOfDigits y with
    | some mv, some dv, some yv =>
      if 1 ≤ mv ∧ mv ≤ 12 ∧ 1 ≤ dv ∧ dv ≤ 31 then some ⟨yv, mv, dv⟩ else none
    | _, _, _ => none
  | _ => none

/-- Parsing a date cell: a missing cell stays missing, a string is parsed,
an already-parsed datetime is returned unchanged (`pd.to_datetime` is the
identity on datetime input). -/
def parseTs (v : Option TsVal) : Option Date :=
  v.bind fun
    | .str s => parseDateString s
    | .dt d => some d

/-- One raw row of the wire payload restricted to the `keep` columns of
`load_clean` (line 39-43 of `src/Streamlit3.py`).  Every field is optional:
`pd.read_csv` yields NaN for missing cells.  Numeric cells are modelled
as rationals. -/
structure RawRow where
  inspection_date : Option TsVal
  borough : Option String
  zip_code : Option String
  inspection_type : Option String
  result : Option String
  x_coord : Option ℚ
  y_coord : Option ℚ
  latitude : Option ℚ
  longitude : Option ℚ
  nta : Option String
deriving DecidableEq, Repr

/-- One cleaned row after `load_clean`'s dropna and derived columns:
`INSPECTION_DATE` is a parsed date, `BOROUGH` and `RESULT` are present,
`INSPECTION_YEAR` and `INSPECTION_MONTH` are derived.  Coordinates stay
optional exactly as in the source (no coercion or pairing is applied). -/
structure CleanRow where
  inspection_date : Date
  borough : String
  zip_code : Option String
  inspection_type : Option String
  result : String
  x_coord : Option ℚ
  y_coord : Option ℚ
  latitude : Option ℚ
  longitude : Option ℚ
  nta : Option String
  inspection_year : Nat
  inspection_month : Nat
deriving DecidableEq, Repr

/-- The `RESULT` replacement dictionary of lines 52-55: each of the five
listed labels is mapped to itself, any other label is left unchanged
(`pd.Series.replace` semantics). -/
def replaceResult (s : String) : String :=
  if s = "Bait applied" then "Bait applied"
  else if s = "Rat Activity" then "Rat Activity"
  else if s = "Passed" then "Passed"
  else if s = "Failed for Other R" then "Failed for Other R"
  else if s = "Monitoring visit" then "Monitoring visit"
  else s

/-- Row-wise cleaning of lines 46-55: parse the date (coercing failures to
NaT), drop the row when the date, `RESULT` or `BOROUGH` is missing
(`dropna(subset=["INSPECTION_DATE", "RESULT", "BOROUGH"])`), derive
`INSPECTION_YEAR` and `INSPECTION_MONTH`, and normalize `RESULT`. -/
def normRow (r : RawRow) : Option CleanRow :=
  match parseTs r.inspection_date, r.result, r.borough with
  | some d, some res, some boro =>
    some { inspection_date := d, borough := boro, zip_code := r.zip_code,
           inspection_type := r.inspection_type, result := replaceResult res,
           x_coord := r.x_coord, y_coord := r.y_coord,
           latitude := r.latitude, longitude := r.longitude, nta := r.nta,
           inspection_year := d.year, inspection_month := d.month }
  | _, _, _ => none

/-- The hard-coded "reasonable year window" filter of line 58. -/
def yearWindow (rows : List CleanRow) : List CleanRow :=
  rows.filter fun r => 2010 ≤ r.inspection_year && r.inspection_year ≤ 2024

/-- The Schemanormalizer of the pipeline: lines 46-58 of `load_clean`
applied to the raw payload (everything except the fetch and the sampling). -/
def normalize (rows : List RawRow) : List CleanRow :=
  yearWindow (rows.filterMap normRow)

/-- One step of a 64-bit linear congruential generator; stands in for the
successive internal states of numpy's seeded generator. -/
def lcgNext (s : Nat) : Nat :=
  (6364136223846793005 * s + 1442695040888963407) % (2 ^ 64)

/-- Fuel-indexed Fisher-Yates extraction: repeatedly removes the element at
a pseudo-randomly chosen index.  With fuel `xs.length` this is a
permutation of `xs`. -/
def shuffleAux : Nat → List CleanRow → Nat → List CleanRow
  | 0, _, _ => []
  | _ + 1, [], _ => []
  | k + 1, x :: rest, s =>
    let xs := x :: rest
    let i := s % xs.length
    xs.getD i x :: shuffleAux k (xs.eraseIdx i) (lcgNext s)

/-- Models `pd.DataFrame.sample(n=n, random_state=seed)`: a deterministic
pseudo-random selection of `n` distinct rows, a pure function of
`(rows, n, seed)`.  The exact permutation drawn by numpy's MT19937 is
abstracted by an LCG-driven Fisher-Yates; the contract (n rows selected
without replacement, reproducible for a fixed seed, independent of process
restarts and platform) is preserved. -/
def pandasSample (rows : List CleanRow) (n : Nat) (seed : Nat) : List CleanRow :=
  (shuffleAux rows.length rows seed).take n

/-- The Sampler component: the guarded sampling pattern of lines 61-62 and
188-189 (`if len(df) > bound: df = df.sample(n=bound, random_state=seed)`),
with the hard-coded `random_state=42` generalized to the `seed` argument. -/
def sampleWith (rows : List CleanRow) (bound : Nat) (seed : Nat) : List CleanRow :=
  if rows.length > bound then pandasSample rows bound seed else rows

/-- `load_clean(sample_n)` of lines 36-63, with the remote payload made an
explicit argument in place of `pd.read_csv(DATA_URL)`: clean, restrict to
the 2010-2024 window, then sample down to `sample_n` rows with
`random_state=42`. -/
def load_clean (remote : List RawRow) (sample_n : Nat) : List CleanRow :=
  sampleWith (normalize remote) sample_n 42

/-- Lines 69-70: `if RESULT_PICK: df = df[df["RESULT"].isin(RESULT_PICK)]`
— an empty multiselect applies no filter. -/
def filterResult (df : List CleanRow) (pick : List String) : List CleanRow :=
  if pick.isEmpty then df else df.filter fun r => pick.contains r.result

/-- Lines 71-72: `if BORO_PICK: df = df[df["BOROUGH"].isin(BORO_PICK)]`. -/
def filterBoro (df : List CleanRow) (pick : List String) : List CleanRow :=
  if pick.isEmpty then df else df.filter fun r => pick.contains r.borough

/-- The sidebar filters of lines 69-72 applied in source order. -/
def applyFilters (df : List CleanRow) (resultPick : List String)
    (boroPick : List String) : List CleanRow :=
  filterBoro (filterResult df resultPick) boroPick

/-- A concrete raw row that survives cleaning (used by witnesses). -/
def rowGood : RawRow :=
  { inspection_date := some (.str "07/15/2019"), borough := some "BRONX",
    zip_code := none, inspection_type := none, result := some "Passed",
    x_coord := none, y_coord := none, latitude := none,
    longitude := none, nta := none }

/-- The cleaned form of `rowGood`. -/
def cleanGood : CleanRow :=
  { inspection_date := ⟨2019, 7, 15⟩, borough := "BRONX", zip_code := none,
    inspection_type := none, result := "Passed", x_coord := none,
    y_coord := none, latitude := none, longitude := none,
    nta := none, inspection_year := 2019, inspection_month := 7 }

/-- Models `pd.Series.min` / `pd.Series.max` on the `INSPECTION_YEAR`
column: `none` (NaN) on an empty frame. -/
def seriesMinYear (df : List CleanRow) : Option Nat :=
  (df.map (·.inspection_year)).min?

def seriesMaxYear (df : List CleanRow) : Option Nat :=
  (df.map (·.inspection_year)).max?

/-- The "Year range" KPI of line 82:
`f"{int(df['INSPECTION_YEAR'].min())}-{int(df['INSPECTION_YEAR'].max())}"`.
On an empty frame `min()` is NaN and `int(NaN)` raises a `ValueError`,
modelled as `Except.error`. -/
def yearRangeMetric (df : List CleanRow) : Except String String :=
  match seriesMinYear df, seriesMaxYear df with
  | some a, some b => .ok (toString a ++ "-" ++ toString b)
  | _, _ => .error "cannot convert float NaN to integer"

/-- Models `df["RESULT"].value_counts()` (line 97): distinct labels with
their occurrence counts, most frequent first. -/
def valueCounts (l : List String) : List (String × Nat) :=
  (List.insertionSort (fun a b => l.count b ≤ l.count a) l.dedup).map
    fun k => (k, l.count k)

/-- The Map tab's `geo = df.dropna(subset=["LATITUDE", "LONGITUDE"])`
(line 187): keep exactly the rows with both coordinates present. -/
def geoFilter (df : List CleanRow) : List CleanRow :=
  df.filter fun r => r.latitude.isSome && r.longitude.isSome

/-- The Map tab's view (lines 187-189): both-coordinate rows, sampled down
to `maxPoints` with `random_state=42`. -/
def geoView (df : List CleanRow) (maxPoints : Nat) : List CleanRow :=
  sampleWith (geoFilter df) maxPoints 42

/-- The state of the `st.cache_data` wrapper around `load_clean`
(line 35): results keyed by the function's argument `sample_n`, plus a
counter of network fetches (executions of the body, each performing one
`pd.read_csv`).  The decorator is used without a `ttl`, so the state
carries no timestamps. -/
structure CacheSt where
  entries : List (Nat × List CleanRow)
  networkCalls : Nat
deriving DecidableEq, Repr

/-- The cached accessor `load_clean(SAMPLE_N)` as invoked at line 66:
look the argument up in the cache; on a hit return the stored frame with
no network activity, on a miss run the body (one network fetch) and store
the result.  The `time` argument is the wall-clock instant of the call;
it is unused because `st.cache_data` is configured without a `ttl`, so a
cached entry never expires. -/
def cachedLoadClean (remote : List RawRow) (sampleN : Nat) (time : Nat)
    (st : CacheSt) : List CleanRow × CacheSt :=
  let _ := time
  match st.entries.find? (fun e => e.1 = sampleN) with
  | some e => (e.2, st)
  | none =>
    let v := load_clean remote sampleN
    (v, ⟨(sampleN, v) :: st.entries, st.networkCalls + 1⟩)

/-! ### Spec-modelled components

The QueryBuilder and the top-K collapsing Aggregator appear in the
specification's core but not in this variant's source file; they are
modelled from the specification's words. -/

/-- Modelled from the spec: the immutable QuerySpec value of §3 — row
limit, inclusive year range, optional borough/result filters.  Missing
from `src/Streamlit3.py`, which hard-codes its query. -/
structure QuerySpec where
  limit : Int
  yearLo : Int
  yearHi : Int
  boroughs : List String
  results : List String
deriving DecidableEq, Repr

/-- Modelled from the spec: the error taxonomy entry `InvalidSpecError`
of §7 (malformed QuerySpec: inverted range or non-positive limit). -/
inductive SpecError where
  | invalidSpec
deriving DecidableEq, Repr

/-- Modelled from the spec: the wire-level query parameters of §4.1. -/
structure WireParams where
  selectCols : List String
  whereYearLo : Int
  whereYearHi : Int
  whereBoroughs : List String
  whereResults : List String
  limitRows : Int
deriving DecidableEq, Repr

/-- Modelled from the spec: `build(spec) -> WireParams` of §4.1, missing
from `src/Streamlit3.py`.  Fails with `InvalidSpecError` when the year
range is inverted or the limit is non-positive; otherwise produces the
wire parameters. -/
def build (spec : QuerySpec) : Except SpecError WireParams :=
  if spec.yearLo > spec.yearHi then .error .invalidSpec
  else if spec.limit ≤ 0 then .error .invalidSpec
  else .ok { selectCols := ["INSPECTION_DATE", "BOROUGH", "ZIP_CODE",
                            "INSPECTION_TYPE", "RESULT", "X_COORD", "Y_COORD",
                            "LATITUDE", "LONGITUDE", "NTA"],
             whereYearLo := spec.yearLo, whereYearHi := spec.yearHi,
             whereBoroughs := spec.boroughs, whereResults := spec.results,
             limitRows := spec.limit }

/-- Modelled from the spec: the build-then-fetch pipeline of §2 — `build`
runs synchronously before any fetch, so a build failure means zero network
calls.  The second component counts network calls attempted. -/
def buildAndFetch (spec : QuerySpec) (remote : List RawRow) :
    Except SpecError (List RawRow) × Nat :=
  match build spec with
  | .error e => (.error e, 0)
  | .ok _ => (.ok remote, 1)

/-- Total volume of one key in a sequence of (key, count) records. -/
def keyTotal (recs : List (String × Nat)) (k : String) : Nat :=
  ((recs.filter fun r => r.1 = k).map Prod.snd).sum

/-- The distinct keys of a record sequence, in first-occurrence order. -/
def keysOf (recs : List (String × Nat)) : List String :=
  (recs.map Prod.fst).dedup

/-- The distinct keys sorted by descending total volume. -/
def sortKeys (recs : List (String × Nat)) : List String :=
  List.insertionSort (fun a b => keyTotal recs b ≤ keyTotal recs a) (keysOf recs)

/-- The top `k` keys by total volume. -/
def topKeys (recs : List (String × Nat)) (k : Nat) : List String :=
  (sortKeys recs).take k

/-- The keys excluded by a top-`k` cut. -/
def droppedKeys (recs : List (String × Nat)) (k : Nat) : List String :=
  (sortKeys recs).drop k

/-- Modelled from the spec: the Aggregator's `groupCount` with long-tail
collapsing (§4.4), missing from `src/Streamlit3.py`.  Keys outside the
top-`topK` by total volume are collapsed into a single `"Other"` bucket
whose count is the sum of the excluded keys' counts. -/
def groupCount (recs : List (String × Nat)) (topK : Nat) : List (String × Nat) :=
  let tops := topKeys recs topK
  let rest := droppedKeys recs topK
  (tops.map fun key => (key, keyTotal recs key)) ++
    (if rest.isEmpty then [] else [("Other", (rest.map (keyTotal recs)).sum)])

/-- The total count of a (key, count) view. -/
def countsSum (recs : List (String × Nat)) : Nat :=
  (recs.map Prod.snd).sum

/-- The keys of the non-"Other" entries of a view. -/
def nonOtherKeys (view : List (String × Nat)) : List String :=
  (view.filter fun p => !(p.1 = "Other")).map Prod.fst

/-- Row-wise fusion of the whole cleaning pipeline (lines 46-58): the
row's cleaned form if it is retained, `none` if it is dropped. -/
def normKeep (r : RawRow) : Option CleanRow :=
  (normRow r).bind fun c =>
    if 2010 ≤ c.inspection_year && c.inspection_year ≤ 2024 then some c else none

/-- The retention test the pipeline actually applies to a raw row: the
timestamp parses, `RESULT` and `BOROUGH` are present, and the parsed year
lies in the hard-coded 2010-2024 window. -/
def keepRow (r : RawRow) : Bool :=
  match parseTs r.inspection_date with
  | some d => r.result.isSome && r.borough.isSome &&
      (2010 ≤ d.year && d.year ≤ 2024)
  | none => false

/-- A cleaned row rendered back as a raw row, as when the cleaned frame is
fed through the pipeline again: `df[keep]` restricts to the `keep` columns,
dropping the derived `INSPECTION_YEAR`/`INSPECTION_MONTH` columns, and the
date cell holds an already-parsed datetime. -/
def cleanToRaw (c : CleanRow) : RawRow :=
  { inspection_date := some (.dt c.inspection_date), borough := some c.borough,
    zip_code := c.zip_code, inspection_type := c.inspection_type,
    result := some c.result, x_coord := c.x_coord, y_coord := c.y_coord,
    latitude := c.latitude, longitude := c.longitude, nta := c.nta }

/-- A raw row whose timestamp parses but whose `BOROUGH` is missing. -/
def rowNoBoro : RawRow :=
  { inspection_date := some (.str "01/15/2015"), borough := none,
    zip_code := none, inspection_type := none, result := some "Passed",
    x_coord := none, y_coord := none, latitude := none, longitude := none,
    nta := none }

/-- A raw row with valid timestamp, borough and result whose latitude is
present but whose longitude is missing. -/
def rowOneSided : RawRow :=
  { inspection_date := some (.str "06/01/2018"), borough := some "QUEENS",
    zip_code := none, inspection_type := none, result := some "Passed",
    x_coord := none, y_coord := none, latitude := some 40, longitude := none,
    nta := none }

/-- A cleaned row with both coordinates present. -/
def cleanGeo : CleanRow :=
  { inspection_date := ⟨2018, 6, 1⟩, borough := "QUEENS", zip_code := none,
    inspection_type := none, result := "Passed", x_coord := none,
    y_coord := none, latitude := some 40, longitude := some 40,
    nta := none, inspection_year := 2018, inspection_month := 6 }

/-! ### Theorems -/

/-- The Fisher-Yates extraction returns `min fuel xs.length` rows. -/
theorem shuffleAux_length (k : Nat) :
    ∀ (xs : List CleanRow) (s : Nat), (shuffleAux k xs s).length = min k xs.length := by
  induction k with
  | zero => intro xs s; simp [shuffleAux]
  | succ k ih =>
    intro xs s
    match xs with
    | [] => simp [shuffleAux]
    | x :: rest =>
      simp only [shuffleAux, List.length_cons, ih]
      rw [List.length_eraseIdx]
      have hi : s % (rest.length + 1) < (x :: rest).length := by
        simp [Nat.mod_lt _ (Nat.succ_pos rest.length)]
      simp only [List.length_cons] at hi ⊢
      rw [if_pos hi]
      omega

/-- Every row produced by the Fisher-Yates extraction comes from the input. -/
theorem shuffleAux_subset (k : Nat) :
    ∀ (xs : List CleanRow) (s : Nat) (a : CleanRow),
      a ∈ shuffleAux k xs s → a ∈ xs := by
  induction k with
  | zero => intro xs s a h; simp [shuffleAux] at h
  | succ k ih =>
    intro xs s a h
    match xs with
    | [] => simp [shuffleAux] at h
    | x :: rest =>
      simp only [shuffleAux, List.mem_cons] at h
      have hi : s % (x :: rest).length < (x :: rest).length :=
        Nat.mod_lt _ (Nat.succ_pos rest.length)
      rcases h with h | h
      · rw [List.getD_eq_getElem _ _ hi] at h
        exact h ▸ List.getElem_mem hi
      · exact (List.eraseIdx_sublist (x :: rest) _).subset (ih _ _ _ h)

/-- Rows selected by the guarded sampler come from the input frame. -/
theorem mem_sampleWith {rows : List CleanRow} {bound seed : Nat} {a : CleanRow}
    (h : a ∈ sampleWith rows bound seed) : a ∈ rows := by
  unfold sampleWith at h
  split at h
  · exact shuffleAux_subset _ _ _ _ (List.take_subset _ _ h)
  · exact h

/-- C6: the sampler returns exactly `min (len rows) bound` rows, returns
the input unchanged when it already fits the bound, and is reproducible —
a pure function of `(rows, bound, seed)`, so identical arguments yield an
identical selection, independent of process restarts or platform. -/
theorem sample_size_and_reproducible (rows : List CleanRow) (bound seed : Nat) :
    (sampleWith rows bound seed).length = min rows.length bound ∧
      (rows.length ≤ bound → sampleWith rows bound seed = rows) ∧
      sampleWith rows bound seed = sampleWith rows bound seed := by
  refine ⟨?_, fun h => ?_, rfl⟩
  · unfold sampleWith
    split
    · simp only [pandasSample, List.length_take, shuffleAux_length]
      omega
    · omega
  · unfold sampleWith
    rw [if_neg (by omega)]

/-- C6 witness: on a two-row frame with bound 1 the sampler returns one
row; on an empty frame with bound 5 it returns the input unchanged. -/
theorem sample_size_and_reproducible_witness :
    (sampleWith [cleanGood, cleanGood] 1 42).length =
        min ([cleanGood, cleanGood] : List CleanRow).length 1 ∧
      sampleWith ([] : List CleanRow) 5 42 = [] :=
  ⟨(sample_size_and_reproducible [cleanGood, cleanGood] 1 42).1,
   (sample_size_and_reproducible [] 5 42).2.1 (by decide)⟩

/-- Every row surviving the sidebar filters was in the input frame. -/
theorem mem_applyFilters {df : List CleanRow} {resPick boroPick : List String}
    {r : CleanRow} (h : r ∈ applyFilters df resPick boroPick) : r ∈ df := by
  unfold applyFilters filterBoro at h
  have h1 : r ∈ filterResult df resPick := by
    split at h
    · exact h
    · exact (List.mem_filter.mp h).1
  unfold filterResult at h1
  split at h1
  · exact h1
  · exact (List.mem_filter.mp h1).1

/-- Every normalized row lies in the hard-coded 2010-2024 year window. -/
theorem mem_normalize_window {raw : List RawRow} {r : CleanRow}
    (h : r ∈ normalize raw) :
    2010 ≤ r.inspection_year ∧ r.inspection_year ≤ 2024 := by
  unfold normalize yearWindow at h
  have := (List.mem_filter.mp h).2
  simp only [Bool.and_eq_true, decide_eq_true_eq] at this
  exact this

/-- C10: every record of the frame returned by `load_clean` — and of any
sidebar-filtered view of it — has an inspection year between 2010 and 2024
inclusive; rows outside the hard-coded window of line 58 are removed during
loading regardless of the caller's filter selection. -/
theorem load_clean_year_window (remote : List RawRow) (n : Nat)
    (resPick boroPick : List String) (r : CleanRow)
    (h : r ∈ applyFilters (load_clean remote n) resPick boroPick) :
    2010 ≤ r.inspection_year ∧ r.inspection_year ≤ 2024 :=
  mem_normalize_window (mem_sampleWith (mem_applyFilters h))

/-- C10 witness: the cleaned form of a concrete July 2019 row is inside
the window. -/
theorem load_clean_year_window_witness :
    2010 ≤ cleanGood.inspection_year ∧ cleanGood.inspection_year ≤ 2024 :=
  load_clean_year_window [rowGood] 5 [] [] cleanGood (by decide)

/-- C3: the claim is right and the code is wrong.  An empty result set is
indeed not an error for normalization and the derived views — `normalize`,
`value_counts`, the sampler and the map view are all empty but well-formed
on zero rows — but the header KPI of line 82 computes
`int(df['INSPECTION_YEAR'].min())`, which on an empty frame converts NaN
to int and raises a `ValueError` instead of rendering. -/
theorem empty_result_kpi_error :
    normalize [] = [] ∧ valueCounts [] = [] ∧ sampleWith [] 30000 42 = [] ∧
      geoView [] 8000 = [] ∧
      yearRangeMetric [] = .error "cannot convert float NaN to integer" :=
  ⟨rfl, rfl, rfl, rfl, rfl⟩

/-- C2 counterexample: the `st.cache_data` wrapper of line 35 is configured
without a `ttl`.  Fetching `load_clean` for the same `sample_n` a second
time 10^9 seconds later — far past any plausible TTL such as 60 seconds —
still issues no second network call: the call count stays 1, where the
claim requires a second network call after TTL expiry. -/
theorem cache_ttl_counterexample :
    ((cachedLoadClean [] 5000 1000000000
        ((cachedLoadClean [] 5000 0 ⟨[], 0⟩).2)).2.networkCalls = 1) ∧
      (60 : Nat) < 1000000000 - 0 :=
  ⟨rfl, by decide⟩

/-- C2 amended: the cache has no TTL.  A cached entry is returned on every
later lookup of the same key no matter how much time has passed: two
fetches of the same canonical query — at any two times — issue exactly one
network call, return the same frame, and the entry is never replaced. -/
theorem cache_hit_forever (remote : List RawRow) (n t1 t2 : Nat) :
    (cachedLoadClean remote n t2 (cachedLoadClean remote n t1 ⟨[], 0⟩).2).1 =
        (cachedLoadClean remote n t1 ⟨[], 0⟩).1 ∧
      (cachedLoadClean remote n t2 (cachedLoadClean remote n t1 ⟨[], 0⟩).2).2 =
        (cachedLoadClean remote n t1 ⟨[], 0⟩).2 ∧
      (cachedLoadClean remote n t1 ⟨[], 0⟩).2.networkCalls = 1 := by
  simp [cachedLoadClean, List.find?]

/-- C8 (modelled from the spec; `build` is absent from the source): a
QuerySpec whose year range is inverted or whose limit is non-positive is
rejected synchronously by `build` with `InvalidSpecError`, and the
build-then-fetch pipeline attempts zero network calls. -/
theorem build_rejects_invalid (spec : QuerySpec) (remote : List RawRow)
    (h : spec.yearLo > spec.yearHi ∨ spec.limit ≤ 0) :
    build spec = .error .invalidSpec ∧
      buildAndFetch spec remote = (.error .invalidSpec, 0) := by
  have hb : build spec = .error .invalidSpec := by
    unfold build
    rcases h with h | h
    · rw [if_pos h]
    · by_cases h2 : spec.yearLo > spec.yearHi
      · rw [if_pos h2]
      · rw [if_neg h2, if_pos h]
  exact ⟨hb, by unfold buildAndFetch; rw [hb]⟩

/-- C8 witness: the spec's example — year range `(2024, 2018)` — is
rejected with `InvalidSpecError` and no network call is attempted. -/
theorem build_rejects_invalid_witness :
    build ⟨100, 2024, 2018, [], []⟩ = .error .invalidSpec ∧
      buildAndFetch ⟨100, 2024, 2018, [], []⟩ [] = (.error .invalidSpec, 0) :=
  build_rejects_invalid ⟨100, 2024, 2018, [], []⟩ [] (Or.inl (by decide))

/-- The list-level pipeline is the row-wise fused pipeline. -/
theorem normalize_eq_filterMap (raw : List RawRow) :
    normalize raw = raw.filterMap normKeep := by
  induction raw with
  | nil => rfl
  | cons r t ih =>
    simp only [normalize, yearWindow, List.filterMap_cons] at ih ⊢
    cases h : normRow r with
    | none => simpa [normKeep, h] using ih
    | some c =>
      by_cases hp : 2010 ≤ c.inspection_year ∧ c.inspection_year ≤ 2024
      · simp [normKeep, h, hp, List.filter_cons, ih]
      · simp [normKeep, h, hp, List.filter_cons, ih]

/-- The fused pipeline retains a row exactly when `keepRow` holds. -/
theorem normKeep_isSome (r : RawRow) : (normKeep r).isSome = keepRow r := by
  unfold normKeep normRow keepRow
  cases h1 : parseTs r.inspection_date with
  | none => rfl
  | some d =>
    cases h2 : r.result with
    | none => simp
    | some res =>
      cases h3 : r.borough with
      | none => simp
      | some boro =>
        simp only [Option.some_bind, h2, h3, Option.isSome_some, Bool.true_and]
        by_cases hp : (2010 ≤ d.year && d.year ≤ 2024) = true
        · simp [hp]
        · simp [Bool.of_not_eq_true hp]

/-- Fields of a retained row: the raw timestamp parsed to the record's
date, `RESULT` and `BOROUGH` were present, and the derived year and month
are those of the date. -/
theorem normKeep_eq_some {r : RawRow} {c : CleanRow} (h : normKeep r = some c) :
    parseTs r.inspection_date = some c.inspection_date ∧
      r.result.isSome = true ∧ r.borough.isSome = true ∧
      c.inspection_year = c.inspection_date.year ∧
      c.inspection_month = c.inspection_date.month := by
  unfold normKeep normRow at h
  cases h1 : parseTs r.inspection_date <;> rw [h1] at h
  · simp at h
  cases h2 : r.result <;> rw [h2] at h
  · simp at h
  cases h3 : r.borough <;> rw [h3] at h
  · simp at h
  simp only [Option.some_bind] at h
  split at h
  · injection h with h
    subst h
    refine ⟨?_, ?_, ?_, rfl, rfl⟩ <;> simp [h1, h2, h3]
  · exact absurd h (by simp)

/-- C4 counterexample: a raw row whose timestamp parses but whose
`BOROUGH` cell is missing is dropped by `normalize`, so normalization does
not drop exactly the rows with unparsable timestamps. -/
theorem drop_not_only_timestamp_counterexample :
    (parseTs rowNoBoro.inspection_date).isSome = true ∧
      normalize [rowNoBoro] = [] :=
  ⟨rfl, rfl⟩

/-- C4 amended: `normalize` drops exactly the rows failing `keepRow` —
unparsable timestamp, or missing `RESULT` or `BOROUGH`, or parsed year
outside the hard-coded 2010-2024 window — and the retained and dropped
counts partition the payload.  The dropped count is not separately exposed
to the caller: `load_clean` returns only the cleaned frame. -/
theorem normalize_drop_characterization (raw : List RawRow) :
    (normalize raw).length = (raw.filter keepRow).length ∧
      (normalize raw).length + (raw.filter fun r => !keepRow r).length =
        raw.length := by
  rw [normalize_eq_filterMap]
  induction raw with
  | nil => exact ⟨rfl, rfl⟩
  | cons r t ih =>
    simp only [List.filterMap_cons, List.filter_cons]
    cases h : normKeep r with
    | none =>
      have hk : keepRow r = false := by rw [← normKeep_isSome, h]; rfl
      simp only [hk, Bool.false_eq_true, if_false, Bool.not_false, if_true,
        List.length_cons]
      exact ⟨ih.1, by omega⟩
    | some c =>
      have hk : keepRow r = true := by rw [← normKeep_isSome, h]; rfl
      simp only [hk, if_true, Bool.not_true, Bool.false_eq_true, if_false,
        List.length_cons]
      exact ⟨by rw [ih.1], by omega⟩

/-- C5 counterexample: a raw row with valid timestamp, borough and result
but only a latitude is retained by `normalize` with one-sided coordinates,
so retained records do not satisfy "both valid or both absent". -/
theorem one_sided_coords_counterexample :
    (normalize [rowOneSided]).map
        (fun c => (c.latitude.isSome, c.longitude.isSome)) = [(true, false)] :=
  rfl

/-- C5 amended: every retained record has a parsed timestamp and present
borough and result (the dropna of line 47), but normalization leaves the
coordinate columns untouched, so coordinates may be one-sided; only the
Map tab's `geo` subset (line 187) guarantees both coordinates present. -/
theorem retained_fields_and_geo_pairing (raw : List RawRow) :
    (∀ c ∈ normalize raw, ∃ r ∈ raw,
        parseTs r.inspection_date = some c.inspection_date ∧
          r.result.isSome = true ∧ r.borough.isSome = true) ∧
      ∀ df : List CleanRow, ∀ c ∈ geoFilter df,
        c.latitude.isSome = true ∧ c.longitude.isSome = true := by
  constructor
  · intro c hc
    rw [normalize_eq_filterMap] at hc
    obtain ⟨r, hr, hk⟩ := List.mem_filterMap.mp hc
    obtain ⟨h1, h2, h3, _, _⟩ := normKeep_eq_some hk
    exact ⟨r, hr, h1, h2, h3⟩
  · intro df c hc
    have := (List.mem_filter.mp hc).2
    simp only [Bool.and_eq_true] at this
    exact this

/-- C5 witness: a concrete geo-subset row has both coordinates present. -/
theorem retained_fields_and_geo_pairing_witness :
    cleanGeo.latitude.isSome = true ∧ cleanGeo.longitude.isSome = true :=
  (retained_fields_and_geo_pairing []).2 [cleanGeo] cleanGeo
    (List.mem_singleton.mpr rfl)

/-- The `RESULT` replacement dictionary of lines 52-55 maps every label to
itself. -/
theorem replaceResult_id (s : String) : replaceResult s = s := by
  unfold replaceResult
  split_ifs with h1 h2 h3 h4 h5
  exacts [h1.symm, h2.symm, h3.symm, h4.symm, h5.symm, rfl]

/-- Re-cleaning a single already-cleaned row retains it unchanged. -/
theorem normRow_cleanToRaw (c : CleanRow)
    (hy : c.inspection_year = c.inspection_date.year)
    (hm : c.inspection_month = c.inspection_date.month) :
    normRow (cleanToRaw c) = some c := by
  cases c
  simp only [normRow, cleanToRaw, parseTs, Option.some_bind, replaceResult_id,
    Option.some.injEq, CleanRow.mk.injEq]
  simp_all

/-- Re-normalizing a list of rows that satisfy the pipeline's invariants
returns it unchanged. -/
theorem normalize_map_cleanToRaw (l : List CleanRow)
    (hinv : ∀ c ∈ l, c.inspection_year = c.inspection_date.year ∧
      c.inspection_month = c.inspection_date.month ∧
      (2010 ≤ c.inspection_year && c.inspection_year ≤ 2024) = true) :
    normalize (l.map cleanToRaw) = l := by
  induction l with
  | nil => rfl
  | cons c t ih =>
    obtain ⟨hy, hm, hw⟩ := hinv c (List.mem_cons_self c t)
    simp only [normalize, yearWindow, List.map_cons, List.filterMap_cons,
      normRow_cleanToRaw c hy hm, List.filter_cons, hw, if_true]
    exact congrArg _ (ih fun x hx => hinv x (List.mem_cons_of_mem c hx))

/-- C7: normalization is idempotent — feeding the cleaned frame back
through the cleaning pipeline changes no field value and drops no further
row. -/
theorem normalize_idempotent (raw : List RawRow) :
    normalize ((normalize raw).map cleanToRaw) = normalize raw := by
  apply normalize_map_cleanToRaw
  intro c hc
  have hw := mem_normalize_window hc
  rw [normalize_eq_filterMap] at hc
  obtain ⟨r, _, hk⟩ := List.mem_filterMap.mp hc
  obtain ⟨_, _, _, hy, hm⟩ := normKeep_eq_some hk
  exact ⟨hy, hm, by simp only [Bool.and_eq_true, decide_eq_true_eq]; exact hw⟩

/-- Splitting off one key's records partitions the total count. -/
theorem key_partition_sum (recs : List (String × Nat)) (k : String) :
    keyTotal recs k + countsSum (recs.filter fun r => !(r.1 = k)) =
      countsSum recs := by
  induction recs with
  | nil => rfl
  | cons r t ih =>
    simp only [keyTotal, countsSum, List.filter_cons] at ih ⊢
    by_cases h : r.1 = k <;> simp [h] <;> omega

/-- Removing the records of a different key leaves a key's total alone. -/
theorem keyTotal_filter_ne (recs : List (String × Nat)) (k k' : String)
    (hne : k' ≠ k) :
    keyTotal (recs.filter fun r => !(r.1 = k)) k' = keyTotal recs k' := by
  unfold keyTotal
  rw [List.filter_filter]
  congr 2
  apply List.filter_congr
  intro x _
  by_cases h : x.1 = k'
  · simp [h, hne]
  · simp [h]

/-- Summing per-key totals over any duplicate-free list of keys covering
the records gives the total count. -/
theorem keys_cover_sum : ∀ (keys : List String) (recs : List (String × Nat)),
    keys.Nodup → (∀ r ∈ recs, r.1 ∈ keys) →
    (keys.map (keyTotal recs)).sum = countsSum recs := by
  intro keys
  induction keys with
  | nil =>
    intro recs _ hcov
    cases recs with
    | nil => rfl
    | cons r t => exact absurd (hcov r (List.mem_cons_self r t)) (List.not_mem_nil r.1)
  | cons k ks ih =>
    intro recs hnd hcov
    have hknotin : k ∉ ks := (List.nodup_cons.mp hnd).1
    have hmap : ks.map (keyTotal recs)
        = ks.map (keyTotal (recs.filter fun r => !(r.1 = k))) := by
      apply List.map_congr_left
      intro k' hk'
      exact (keyTotal_filter_ne recs k k' fun he => hknotin (he ▸ hk')).symm
    have hcov' : ∀ r ∈ recs.filter (fun r => !(r.1 = k)), r.1 ∈ ks := by
      intro r hr
      have hmem := List.mem_filter.mp hr
      have h2 : ¬(r.1 = k) := by simpa using hmem.2
      rcases List.mem_cons.mp (hcov r hmem.1) with h | h
      · exact absurd h h2
      · exact h
    simp only [List.map_cons, List.sum_cons, hmap]
    rw [ih (recs.filter fun r => !(r.1 = k)) (List.nodup_cons.mp hnd).2 hcov']
    exact key_partition_sum recs k

/-- The volume-sorted key list is a permutation of the distinct keys. -/
theorem sortKeys_perm (recs : List (String × Nat)) :
    (sortKeys recs).Perm (keysOf recs) :=
  List.perm_insertionSort _ _

/-- The volume-sorted key list is duplicate-free. -/
theorem sortKeys_nodup (recs : List (String × Nat)) : (sortKeys recs).Nodup :=
  (sortKeys_perm recs).symm.nodup (List.nodup_dedup _)

/-- Every record's key occurs in the volume-sorted key list. -/
theorem mem_sortKeys_of_mem {recs : List (String × Nat)} {r : String × Nat}
    (hr : r ∈ recs) : r.1 ∈ sortKeys recs :=
  (sortKeys_perm recs).mem_iff.mpr (List.mem_dedup.mpr (List.mem_map_of_mem _ hr))

/-- The volume-sorted key list is sorted by descending total volume. -/
theorem sortKeys_sorted (recs : List (String × Nat)) :
    List.Sorted (fun a b => keyTotal recs b ≤ keyTotal recs a) (sortKeys recs) := by
  haveI : IsTotal String (fun a b => keyTotal recs b ≤ keyTotal recs a) :=
    ⟨fun a b => le_total (keyTotal recs b) (keyTotal recs a)⟩
  haveI : IsTrans String (fun a b => keyTotal recs b ≤ keyTotal recs a) :=
    ⟨fun _ _ _ hab hbc => le_trans hbc hab⟩
  exact List.sorted_insertionSort _ _

/-- Summing per-key totals over the volume-sorted keys gives the total. -/
theorem sortKeys_sum (recs : List (String × Nat)) :
    ((sortKeys recs).map (keyTotal recs)).sum = countsSum recs :=
  keys_cover_sum (sortKeys recs) recs (sortKeys_nodup recs)
    fun _ hr => mem_sortKeys_of_mem hr

/-- C1 (modelled from the spec; no top-K collapsing Aggregator exists in
the source): for every (key, count) record sequence containing no literal
"Other" key and every `k`, `groupCount` with `topK = k` preserves the total
count, its non-"Other" entries are exactly the `k` highest-volume keys, the
excluded keys all have volume at most that of any kept key, and the
"Other" bucket (present when keys were excluded) carries the sum of the
excluded keys' counts. -/
theorem groupCount_topK (recs : List (String × Nat)) (k : Nat)
    (hother : "Other" ∉ recs.map Prod.fst) :
    countsSum (groupCount recs k) = countsSum recs ∧
      nonOtherKeys (groupCount recs k) = topKeys recs k ∧
      (∀ a ∈ topKeys recs k, ∀ b ∈ droppedKeys recs k,
        keyTotal recs b ≤ keyTotal recs a) ∧
      (¬droppedKeys recs k = [] →
        ("Other", ((droppedKeys recs k).map (keyTotal recs)).sum) ∈
          groupCount recs k) := by
  have hnotOther : ∀ a ∈ sortKeys recs, ¬(a = "Other") := by
    intro a ha he
    subst he
    exact hother (List.mem_dedup.mp ((sortKeys_perm recs).mem_iff.mp ha))
  have hsplit : ((topKeys recs k).map (keyTotal recs)).sum +
      ((droppedKeys recs k).map (keyTotal recs)).sum = countsSum recs := by
    have h : ((topKeys recs k ++ droppedKeys recs k).map (keyTotal recs)).sum
        = ((sortKeys recs).map (keyTotal recs)).sum := by
      rw [topKeys, droppedKeys, List.take_append_drop]
    rw [List.map_append, List.sum_append] at h
    rw [h, sortKeys_sum recs]
  refine ⟨?_, ?_, ?_, ?_⟩
  · by_cases hrest : droppedKeys recs k = []
    · rw [hrest] at hsplit
      simp only [List.map_nil, List.sum_nil, Nat.add_zero] at hsplit
      simp [groupCount, countsSum, List.map_map, Function.comp_def, hrest, hsplit]
    · have hb : (droppedKeys recs k).isEmpty = false := List.isEmpty_eq_false.mpr hrest
      have hgc : groupCount recs k =
          ((topKeys recs k).map fun key => (key, keyTotal recs key)) ++
            [("Other", ((droppedKeys recs k).map (keyTotal recs)).sum)] := by
        simp [groupCount, hb]
      rw [hgc]
      simp only [countsSum, List.map_append, List.sum_append, List.map_map,
        List.map_cons, List.map_nil, List.sum_cons, List.sum_nil, Nat.add_zero]
      have hcomp : ((topKeys recs k).map
            (Prod.snd ∘ fun key => (key, keyTotal recs key))) =
          (topKeys recs k).map (keyTotal recs) := rfl
      rw [hcomp]
      simp only [countsSum] at hsplit
      exact hsplit
  · have hfirst : ((topKeys recs k).map fun key => (key, keyTotal recs key)).filter
        (fun p => !(p.1 = "Other")) =
        (topKeys recs k).map fun key => (key, keyTotal recs key) := by
      apply List.filter_eq_self.mpr
      intro p hp
      obtain ⟨key, hkey, rfl⟩ := List.mem_map.mp hp
      simpa using hnotOther key (List.take_subset k _ hkey)
    by_cases hrest : droppedKeys recs k = []
    · have hb : (droppedKeys recs k).isEmpty = true := List.isEmpty_iff.mpr hrest
      simp [nonOtherKeys, groupCount, hb, hfirst, List.map_map, Function.comp_def]
    · have hb : (droppedKeys recs k).isEmpty = false := List.isEmpty_eq_false.mpr hrest
      simp [nonOtherKeys, groupCount, hb, List.filter_append, hfirst,
        List.map_map, Function.comp_def]
  · intro a ha b hb
    have hsorted := sortKeys_sorted recs
    rw [← List.take_append_drop k (sortKeys recs)] at hsorted
    exact (List.pairwise_append.mp hsorted).2.2 a ha b hb
  · intro hrest
    have hb : (droppedKeys recs k).isEmpty = false := List.isEmpty_eq_false.mpr hrest
    simp [groupCount, hb]

/-- C1 witness: the spec's example — counts `A:50, B:30, C:10, D:5, E:5`
with `topK = 2` collapse to `A:50, B:30, Other:20` with the total of 100
preserved. -/
theorem groupCount_topK_witness :
    "Other" ∉ ([("A", 50), ("B", 30), ("C", 10), ("D", 5), ("E", 5)] :
        List (String × Nat)).map Prod.fst ∧
      countsSum (groupCount [("A", 50), ("B", 30), ("C", 10), ("D", 5), ("E", 5)] 2) =
        countsSum [("A", 50), ("B", 30), ("C", 10), ("D", 5), ("E", 5)] ∧
      groupCount [("A", 50), ("B", 30), ("C", 10), ("D", 5), ("E", 5)] 2 =
        [("A", 50), ("B", 30), ("Other", 20)] :=
  ⟨by decide,
   (groupCount_topK [("A", 50), ("B", 30), ("C", 10), ("D", 5), ("E", 5)] 2
     (by decide)).1,
   by decide⟩

end Streamlit3
